import Mathlib

/-!
Shallow embedding of `src/index.ts` of the electrical-code-tutor worker.

The worker is a Cloudflare Worker with three pieces of logic:
* a router (`fetch`) dispatching on method and path;
* a chat handler (`handleChatRequest`) that parses `{ messages }`, picks the
  last user-role message, and issues a single AutoRAG `aiSearch` call with
  that message's content as the query;
* a stream pump (`pump`) that incrementally UTF-8-decodes upstream chunks,
  splits each decoded chunk into lines, strips the `data: ` SSE marker,
  JSON-parses each line, and re-emits `{"response": ...}\n` lines.

Platform primitives (`JSON.parse`, `JSON.stringify`, `TextDecoder` with
`stream: true`) are modelled explicitly below.
-/

/-- JSON values, as produced by `JSON.parse`.  Numeric payloads are modelled
by the integer part of the literal; no verified property depends on a
numeric value. -/
inductive Json where
  | null
  | bool (b : Bool)
  | num (n : Int)
  | str (s : String)
  | arr (elems : List Json)
  | obj (fields : List (String × Json))

/-- Skip JSON whitespace. -/
def skipWs : List Char → List Char
  | c :: cs => if c = ' ' ∨ c = '\t' ∨ c = '\n' ∨ c = '\r' then skipWs cs else c :: cs
  | [] => []

/-- Value of a hexadecimal digit. -/
def hexVal (c : Char) : Option Nat :=
  if '0' ≤ c ∧ c ≤ '9' then some (c.toNat - 48)
  else if 'a' ≤ c ∧ c ≤ 'f' then some (c.toNat - 87)
  else if 'A' ≤ c ∧ c ≤ 'F' then some (c.toNat - 55)
  else none

/-- Body of a JSON string literal, after the opening quote: returns the
decoded string and the rest of the input after the closing quote. -/
def parseStringBody : List Char → Option (String × List Char)
  | [] => none
  | '"' :: rest => some ("", rest)
  | '\\' :: 'u' :: h1 :: h2 :: h3 :: h4 :: rest =>
    match hexVal h1, hexVal h2, hexVal h3, hexVal h4 with
    | some a, some b, some c, some d =>
      (parseStringBody rest).map
        (fun p => (String.singleton (Char.ofNat (((a * 16 + b) * 16 + c) * 16 + d)) ++ p.1, p.2))
    | _, _, _, _ => none
  | '\\' :: e :: rest =>
    let esc : Option String :=
      if e = '"' then some "\""
      else if e = '\\' then some "\\"
      else if e = '/' then some "/"
      else if e = 'n' then some "\n"
      else if e = 't' then some "\t"
      else if e = 'r' then some "\r"
      else if e = 'b' then some (String.singleton (Char.ofNat 8))
      else if e = 'f' then some (String.singleton (Char.ofNat 12))
      else none
    match esc with
    | some s => (parseStringBody rest).map (fun p => (s ++ p.1, p.2))
    | none => none
  | c :: rest =>
    if c.toNat < 32 then none
    else (parseStringBody rest).map (fun p => (String.singleton c ++ p.1, p.2))

/-- Consume a run of decimal digits. -/
def takeDigits : List Char → String × List Char
  | c :: cs =>
    if c.isDigit then
      let p := takeDigits cs
      (String.singleton c ++ p.1, p.2)
    else ("", c :: cs)
  | [] => ("", [])

/-- Numeric value of a digit string. -/
def digitsToNat (s : String) : Nat :=
  s.data.foldl (fun n c => n * 10 + (c.toNat - 48)) 0

/-- Consume an optional fraction part (`.digits`). -/
def parseFrac : List Char → Option (List Char)
  | '.' :: rest =>
    let p := takeDigits rest
    if p.1 = "" then none else some p.2
  | cs => some cs

/-- Drop a leading sign character. -/
def dropSign : List Char → List Char
  | '+' :: r => r
  | '-' :: r => r
  | cs => cs

/-- Consume an optional exponent part (`e`/`E`, sign, digits). -/
def parseExp : List Char → Option (List Char)
  | c :: rest =>
    if c = 'e' ∨ c = 'E' then
      let p := takeDigits (dropSign rest)
      if p.1 = "" then none else some p.2
    else some (c :: rest)
  | [] => some []

/-- Parse a JSON number token (value kept as its integer part). -/
def parseNumber (cs : List Char) : Option (Json × List Char) :=
  let sign : Bool × List Char := match cs with | '-' :: rest => (true, rest) | _ => (false, cs)
  let ip := takeDigits sign.2
  if ip.1 = "" then none
  else
    match parseFrac ip.2 with
    | none => none
    | some r1 =>
      match parseExp r1 with
      | none => none
      | some r2 =>
        let v : Int := Int.ofNat (digitsToNat ip.1)
        some (.num (if sign.1 then -v else v), r2)

mutual

/-- Recursive-descent JSON value parser (fuel-indexed). -/
def parseValue : Nat → List Char → Option (Json × List Char)
  | 0, _ => none
  | fuel + 1, cs =>
    match skipWs cs with
    | '{' :: rest =>
      match skipWs rest with
      | '}' :: r2 => some (.obj [], r2)
      | _ => parseMembers fuel (skipWs rest) []
    | '[' :: rest =>
      match skipWs rest with
      | ']' :: r2 => some (.arr [], r2)
      | _ => parseElements fuel (skipWs rest) []
    | '"' :: rest => (parseStringBody rest).map (fun p => (.str p.1, p.2))
    | 't' :: 'r' :: 'u' :: 'e' :: rest => some (.bool true, rest)
    | 'f' :: 'a' :: 'l' :: 's' :: 'e' :: rest => some (.bool false, rest)
    | 'n' :: 'u' :: 'l' :: 'l' :: rest => some (.null, rest)
    | c :: rest => if c = '-' ∨ c.isDigit then parseNumber (c :: rest) else none
    | [] => none

/-- Parse the members of a JSON object, after the opening brace. -/
def parseMembers : Nat → List Char → List (String × Json) → Option (Json × List Char)
  | 0, _, _ => none
  | fuel + 1, cs, acc =>
    match skipWs cs with
    | '"' :: rest =>
      match parseStringBody rest with
      | none => none
      | some (key, r1) =>
        match skipWs r1 with
        | ':' :: r2 =>
          match parseValue fuel r2 with
          | none => none
          | some (v, r3) =>
            match skipWs r3 with
            | ',' :: r4 => parseMembers fuel r4 (acc ++ [(key, v)])
            | '}' :: r4 => some (.obj (acc ++ [(key, v)]), r4)
            | _ => none
        | _ => none
    | _ => none

/-- Parse the elements of a JSON array, after the opening bracket. -/
def parseElements : Nat → List Char → List Json → Option (Json × List Char)
  | 0, _, _ => none
  | fuel + 1, cs, acc =>
    match parseValue fuel cs with
    | none => none
    | some (v, r1) =>
      match skipWs r1 with
      | ',' :: r2 => parseElements fuel r2 (acc ++ [v])
      | ']' :: r2 => some (.arr (acc ++ [v]), r2)
      | _ => none

end

/-- `JSON.parse`: parse a complete JSON document; trailing non-whitespace is
an error. -/
def jsonParse (s : String) : Option Json :=
  match parseValue (s.length + 2) s.data with
  | some (v, rest) => if skipWs rest = [] then some v else none
  | none => none

/-- Lower-case hex digit for a value below 16. -/
def hexDigitChar (n : Nat) : String :=
  String.singleton (if n < 10 then Char.ofNat (48 + n) else Char.ofNat (87 + n))

/-- Escape one character for a JSON string literal, as `JSON.stringify`
does. -/
def escapeJsonChar (c : Char) : String :=
  if c = '"' then "\\\""
  else if c = '\\' then "\\\\"
  else if c = '\n' then "\\n"
  else if c = '\r' then "\\r"
  else if c = '\t' then "\\t"
  else if c.toNat = 8 then "\\b"
  else if c.toNat = 12 then "\\f"
  else if c.toNat < 32 then "\\u00" ++ hexDigitChar (c.toNat / 16) ++ hexDigitChar (c.toNat % 16)
  else String.singleton c

/-- Serialize a string as a JSON string literal. -/
def quoteJsonString (s : String) : String :=
  "\"" ++ String.join (s.data.map escapeJsonChar) ++ "\""

mutual

/-- `JSON.stringify` (no spacing, as in the worker). -/
def Json.stringify : Json → String
  | .null => "null"
  | .bool true => "true"
  | .bool false => "false"
  | .num n => toString n
  | .str s => quoteJsonString s
  | .arr xs => "[" ++ stringifyElems xs ++ "]"
  | .obj kvs => "\x7b" ++ stringifyFields kvs ++ "\x7d"

/-- Comma-separated serialization of array elements. -/
def stringifyElems : List Json → String
  | [] => ""
  | [x] => x.stringify
  | x :: y :: rest => x.stringify ++ "," ++ stringifyElems (y :: rest)

/-- Comma-separated serialization of object fields. -/
def stringifyFields : List (String × Json) → String
  | [] => ""
  | [(k, v)] => quoteJsonString k ++ ":" ++ v.stringify
  | (k, v) :: y :: rest => quoteJsonString k ++ ":" ++ v.stringify ++ "," ++ stringifyFields (y :: rest)

end

/-- JavaScript property access `data.field` on a parsed JSON value: on an
object the last binding of the key wins (as with duplicate keys in
`JSON.parse`); on every non-object it yields `undefined`, modelled `none`
(on `null` the access throws, which the pump's `catch` turns into the same
skip). -/
def Json.getField : Json → String → Option Json
  | .obj kvs, k => (kvs.filterMap (fun kv => if kv.1 = k then some kv.2 else none)).getLast?
  | _, _ => none

/-- JavaScript truthiness of a JSON value. -/
def Json.truthy : Json → Bool
  | .null => false
  | .bool b => b
  | .num n => n != 0
  | .str s => s != ""
  | .arr _ => true
  | .obj _ => true

/-- Does the first character list begin with the second? -/
def charsBeginWith : List Char → List Char → Bool
  | _, [] => true
  | [], _ :: _ => false
  | c :: cs, p :: ps => c = p && charsBeginWith cs ps

/-- JavaScript `s.startsWith(p)`. -/
def jsStartsWith (s p : String) : Bool :=
  charsBeginWith s.data p.data

/-- Whitespace for JavaScript `trim` (the characters relevant here). -/
def isWsChar (c : Char) : Bool :=
  c = ' ' || c = '\t' || c = '\n' || c = '\r'

/-- JavaScript `s.trim()`. -/
def jsTrim (s : String) : String :=
  ⟨((s.data.dropWhile isWsChar).reverse.dropWhile isWsChar).reverse⟩

/-- Split a character list at line feeds, JavaScript `split('\n')` style. -/
def splitNlGo : List Char → List Char → List String
  | [], acc => [⟨acc.reverse⟩]
  | c :: cs, acc =>
    if c = '\n' then (⟨acc.reverse⟩ : String) :: splitNlGo cs []
    else splitNlGo cs (c :: acc)

/-- JavaScript `s.split('\n')`. -/
def jsSplitNl (s : String) : List String :=
  splitNlGo s.data []

/-- `line.replace(/^data: /, '')`: strip one leading `data: ` marker. -/
def stripDataMarker (line : String) : String :=
  if jsStartsWith line "data: " then ⟨line.data.drop 6⟩ else line

/-- One iteration of the pump's per-line body: skip blank lines and the
`data: [DONE]` sentinel, strip the marker, `JSON.parse` the remainder
(parse failure is caught and the line skipped), and when the parsed value
has a truthy `response` field, emit `JSON.stringify({response: ...}) + '\n'`. -/
def processLine (line : String) : Option String :=
  if jsTrim line != "" && !(jsStartsWith line "data: [DONE]") then
    let cleanLine := jsTrim (stripDataMarker line)
    if cleanLine != "" then
      match jsonParse cleanLine with
      | none => none
      | some data =>
        match data.getField "response" with
        | none => none
        | some v =>
          if v.truthy then some ((Json.obj [("response", v)]).stringify ++ "\n") else none
    else none
  else none

/-- Per-line processing of a list of already-split lines. -/
def processLines (lines : List String) : List String :=
  lines.filterMap processLine

/-- The pump's handling of one decoded chunk: `chunk.split('\n')` followed
by the per-line body. -/
def processChunk (chunk : String) : List String :=
  processLines (jsSplitNl chunk)

/-- Incremental UTF-8 decoder state (`TextDecoder` with `stream: true`):
the partially accumulated code point and the number of continuation bytes
still expected.  `need = 0` means no multi-byte sequence is pending. -/
structure DecState where
  acc : Nat
  need : Nat
deriving DecidableEq

/-- Fresh decoder state. -/
def DecState.init : DecState := ⟨0, 0⟩

/-- Feed one byte to the decoder; returns the new state and the code points
produced.  Models WHATWG utf-8 decoding of well-formed input; on malformed
bytes it emits U+FFFD and resets (overlong/surrogate/range checks are not
modelled — no verified property feeds the decoder malformed input). -/
def byteStep (st : DecState) (b : Nat) : DecState × List Nat :=
  if st.need = 0 then
    if b < 0x80 then (⟨0, 0⟩, [b])
    else if b < 0xC0 then (⟨0, 0⟩, [0xFFFD])
    else if b < 0xE0 then (⟨b - 0xC0, 1⟩, [])
    else if b < 0xF0 then (⟨b - 0xE0, 2⟩, [])
    else if b < 0xF8 then (⟨b - 0xF0, 3⟩, [])
    else (⟨0, 0⟩, [0xFFFD])
  else
    if 0x80 ≤ b ∧ b < 0xC0 then
      if st.need = 1 then (⟨0, 0⟩, [st.acc * 64 + (b - 0x80)])
      else (⟨st.acc * 64 + (b - 0x80), st.need - 1⟩, [])
    else (⟨0, 0⟩, [0xFFFD])

/-- `decoder.decode(value, { stream: true })`: feed a chunk of bytes,
carrying the partial-sequence state across calls. -/
def decodeBytes : DecState → List Nat → DecState × List Nat
  | st, [] => (st, [])
  | st, b :: bs =>
    let p := byteStep st b
    let q := decodeBytes p.1 bs
    (q.1, p.2 ++ q.2)

/-- UTF-8 encoding of one code point. -/
def encodeChar (c : Nat) : List Nat :=
  if c < 0x80 then [c]
  else if c < 0x800 then [0xC0 + c / 64, 0x80 + c % 64]
  else if c < 0x10000 then [0xE0 + c / 4096, 0x80 + c / 64 % 64, 0x80 + c % 64]
  else [0xF0 + c / 262144, 0x80 + c / 4096 % 64, 0x80 + c / 64 % 64, 0x80 + c % 64]

/-- UTF-8 encoding of a code-point sequence. -/
def utf8Encode : List Nat → List Nat
  | [] => []
  | c :: cs => encodeChar c ++ utf8Encode cs

/-- UTF-8 encoding of a string (`TextEncoder`). -/
def utf8EncodeString (s : String) : List Nat :=
  utf8Encode (s.data.map Char.toNat)

/-- Rebuild a string from decoded code points. -/
def stringOfCodepoints (cps : List Nat) : String :=
  ⟨cps.map Char.ofNat⟩

/-- The pump loop over the remaining upstream chunks: decode each chunk with
the carried decoder state, process its lines, and concatenate everything
enqueued.  Reaching the end of the chunk list models `done` — the
controller is closed cleanly, so the output is exactly the list produced. -/
def pumpGo : DecState → List (List Nat) → List String
  | _, [] => []
  | st, chunk :: rest =>
    let p := decodeBytes st chunk
    processChunk (stringOfCodepoints p.2) ++ pumpGo p.1 rest

/-- The stream translator: byte chunks in, enqueued output lines out. -/
def pumpBytes (chunks : List (List Nat)) : List String :=
  pumpGo DecState.init chunks

/-- `MODEL_ID` constant of the worker (defined in the source and never
used afterwards). -/
def MODEL_ID : String := "@cf/meta/llama-3.3-70b-instruct-fp8-fast"

/-- `SYSTEM_PROMPT` constant of the worker (defined in the source and never
used afterwards). -/
def SYSTEM_PROMPT : String := "You are an expert electrical code tutor specializing in the National Electrical Code (NEC) 2017. You provide accurate, detailed explanations of electrical code requirements, safety practices, and installation standards. Always reference specific NEC sections when applicable and prioritize safety in your responses."

/-- A chat message `{ role, content }`; the role is the raw string the
handler compares against `"user"`. -/
structure ChatMessage where
  role : String
  content : String
deriving DecidableEq

/-- The `ranking_options` argument of the `aiSearch` call. -/
structure RankingOptions where
  score_threshold : Rat
deriving DecidableEq

/-- The complete upstream call issued by the handler: the AutoRAG instance
name together with the `aiSearch` argument object. -/
structure AiSearchCall where
  autorag_id : String
  query : String
  rewrite_query : Bool
  max_num_results : Nat
  ranking_options : RankingOptions
  stream : Bool
deriving DecidableEq

/-- The `aiSearch` call the handler builds for a query: every field other
than `query` is a fixed constant. -/
def mkAiSearchCall (q : String) : AiSearchCall :=
  ⟨"electrical-code-rag", q, true, 5, ⟨(3 : Rat) / 10⟩, true⟩

/-- Observable behaviour of the AutoRAG collaborator on one call: the
`aiSearch` promise rejects (`throws`), or it resolves with a response whose
body is absent (`returns none`) or is a byte-chunk stream. -/
inductive RagBehavior where
  | throws
  | returns (body : Option (List (List Nat)))

/-- Response of the chat handler: a JSON error response with its status and
body, or a streaming 200 response whose payload is the translated output
lines. -/
inductive ChatResponse where
  | json (status : Nat) (body : String)
  | stream (lines : List String)

/-- Body of the 500 response produced by the blanket catch. -/
def errFailedBody : String := "\x7b\"error\":\"Failed to process request\"\x7d"

/-- Body of the 400 response when no user message exists. -/
def errNoUserBody : String := "\x7b\"error\":\"No user message found\"\x7d"

/-- Body of the 500 response when the AutoRAG response has no body. -/
def errNoRagBody : String := "\x7b\"error\":\"No response received from AutoRAG\"\x7d"

/-- `handleChatRequest`.  The request body is `none` when `request.json()`
throws, otherwise `some mfield` where `mfield` is the `messages` field
(`none` when absent, defaulted to `[]` by the destructuring).  `rag` is the
AutoRAG collaborator.  Returns the HTTP response together with the list of
upstream calls issued (used to state call-count properties). -/
def handleChatRequest (rag : AiSearchCall → RagBehavior)
    (body : Option (Option (List ChatMessage))) : ChatResponse × List AiSearchCall :=
  match body with
  | none => (.json 500 errFailedBody, [])
  | some mfield =>
    match ((mfield.getD []).filter (fun m => m.role == "user")).getLast? with
    | none => (.json 400 errNoUserBody, [])
    | some latestUserMessage =>
      let call := mkAiSearchCall latestUserMessage.content
      match rag call with
      | .throws => (.json 500 errFailedBody, [call])
      | .returns none => (.json 500 errNoRagBody, [call])
      | .returns (some chunks) => (.stream (pumpBytes chunks), [call])

/-- An incoming HTTP request as the router sees it. -/
structure HttpRequest where
  method : String
  path : String
deriving DecidableEq

/-- Outcome of the router: delegate to the static-asset collaborator with
the forwarded request, delegate to the chat handler, or answer directly
with a status and plain-text body. -/
inductive RouteOutcome where
  | assets (forwarded : HttpRequest)
  | chatPost (forwarded : HttpRequest)
  | response (status : Nat) (body : String)
deriving DecidableEq

/-- The worker's `fetch` dispatch on `(method, pathname)`. -/
def routeRequest (req : HttpRequest) : RouteOutcome :=
  if req.path = "/" ∨ jsStartsWith req.path "/api/" = false then .assets req
  else if req.path = "/api/chat" then
    if req.method = "POST" then .chatPost req
    else .response 405 "Method not allowed"
  else .response 404 "Not found"

/-! ### Decoder lemmas -/

lemma decodeBytes_cons (st : DecState) (b : Nat) (bs : List Nat) :
    decodeBytes st (b :: bs) =
      ((decodeBytes (byteStep st b).1 bs).1,
       (byteStep st b).2 ++ (decodeBytes (byteStep st b).1 bs).2) := rfl

lemma decodeBytes_append (a b : List Nat) : ∀ st : DecState,
    decodeBytes st (a ++ b) =
      ((decodeBytes (decodeBytes st a).1 b).1,
       (decodeBytes st a).2 ++ (decodeBytes (decodeBytes st a).1 b).2) := by
  induction a with
  | nil => intro st; simp [decodeBytes]
  | cons x xs ih => intro st; simp [decodeBytes, ih]

lemma byteStep_ascii (b : Nat) (hb : b < 0x80) :
    byteStep DecState.init b = (DecState.init, [b]) := by
  simp [byteStep, DecState.init, hb]

lemma byteStep_lead (b : Nat) (h1 : 0xC0 ≤ b) (h2 : b < 0xE0) :
    byteStep DecState.init b = (⟨b - 0xC0, 1⟩, []) := by
  simp only [byteStep, DecState.init]
  split_ifs <;> simp_all <;> omega

lemma byteStep_lead3 (b : Nat) (h1 : 0xE0 ≤ b) (h2 : b < 0xF0) :
    byteStep DecState.init b = (⟨b - 0xE0, 2⟩, []) := by
  simp only [byteStep, DecState.init]
  split_ifs <;> simp_all <;> omega

lemma byteStep_lead4 (b : Nat) (h1 : 0xF0 ≤ b) (h2 : b < 0xF8) :
    byteStep DecState.init b = (⟨b - 0xF0, 3⟩, []) := by
  simp only [byteStep, DecState.init]
  split_ifs <;> simp_all <;> omega

lemma byteStep_cont (a k b : Nat) (hk : k ≠ 0) (hk1 : k ≠ 1) (h1 : 0x80 ≤ b) (h2 : b < 0xC0) :
    byteStep ⟨a, k⟩ b = (⟨a * 64 + (b - 0x80), k - 1⟩, []) := by
  simp only [byteStep]
  split_ifs <;> simp_all

lemma byteStep_fin (a b : Nat) (h1 : 0x80 ≤ b) (h2 : b < 0xC0) :
    byteStep ⟨a, 1⟩ b = (DecState.init, [a * 64 + (b - 0x80)]) := by
  simp only [byteStep, DecState.init]
  split_ifs <;> simp_all

lemma decodeChar_roundtrip (c : Nat) (h : c < 0x110000) :
    decodeBytes DecState.init (encodeChar c) = (DecState.init, [c]) := by
  unfold encodeChar
  by_cases h1 : c < 0x80
  · rw [if_pos h1, decodeBytes_cons, byteStep_ascii c h1]
    simp [decodeBytes]
  · rw [if_neg h1]
    by_cases h2 : c < 0x800
    · rw [if_pos h2, decodeBytes_cons, byteStep_lead (0xC0 + c / 64) (by omega) (by omega)]
      simp only
      rw [decodeBytes_cons, byteStep_fin _ (0x80 + c % 64) (by omega) (by omega)]
      simp [decodeBytes, Prod.mk.injEq]
      omega
    · rw [if_neg h2]
      by_cases h3 : c < 0x10000
      · rw [if_pos h3, decodeBytes_cons, byteStep_lead3 (0xE0 + c / 4096) (by omega) (by omega)]
        simp only
        rw [decodeBytes_cons,
          byteStep_cont _ 2 (0x80 + c / 64 % 64) (by omega) (by omega) (by omega) (by omega)]
        simp only
        rw [decodeBytes_cons, byteStep_fin _ (0x80 + c % 64) (by omega) (by omega)]
        simp [decodeBytes, Prod.mk.injEq]
        omega
      · rw [if_neg h3, decodeBytes_cons, byteStep_lead4 (0xF0 + c / 262144) (by omega) (by omega)]
        simp only
        rw [decodeBytes_cons,
          byteStep_cont _ 3 (0x80 + c / 4096 % 64) (by omega) (by omega) (by omega) (by omega)]
        simp only
        rw [decodeBytes_cons,
          byteStep_cont _ 2 (0x80 + c / 64 % 64) (by omega) (by omega) (by omega) (by omega)]
        simp only
        rw [decodeBytes_cons, byteStep_fin _ (0x80 + c % 64) (by omega) (by omega)]
        simp [decodeBytes, Prod.mk.injEq]
        omega

lemma decode_encode (cps : List Nat) (h : ∀ c ∈ cps, c < 0x110000) :
    decodeBytes DecState.init (utf8Encode cps) = (DecState.init, cps) := by
  induction cps with
  | nil => rfl
  | cons c cs ih =>
    have hc : c < 0x110000 := h c (List.mem_cons_self c cs)
    have hcs : ∀ x ∈ cs, x < 0x110000 := fun x hx => h x (List.mem_cons_of_mem c hx)
    show decodeBytes DecState.init (encodeChar c ++ utf8Encode cs) = _
    rw [decodeBytes_append, decodeChar_roundtrip c hc]
    simp [ih hcs]

lemma char_toNat_lt (c : Char) : c.toNat < 0x110000 := by
  rcases c.valid with h | ⟨h1, h2⟩ <;> simp [Char.toNat] <;> omega

lemma decode_encodeString (s : String) :
    decodeBytes DecState.init (utf8EncodeString s) = (DecState.init, s.data.map Char.toNat) := by
  apply decode_encode
  intro c hc
  simp only [List.mem_map] at hc
  obtain ⟨x, _, rfl⟩ := hc
  exact char_toNat_lt x

lemma stringOfCodepoints_toNat (s : String) :
    stringOfCodepoints (s.data.map Char.toNat) = s := by
  unfold stringOfCodepoints
  rw [List.map_map]
  have hmap : s.data.map (Char.ofNat ∘ Char.toNat) = s.data := by
    apply List.map_congr_left ?_ |>.trans (List.map_id s.data)
    intro c _
    exact Char.ofNat_toNat c
  rw [hmap]

lemma pumpGo_encode (chunks : List String) :
    pumpGo DecState.init (chunks.map utf8EncodeString) = (chunks.map processChunk).flatten := by
  induction chunks with
  | nil => rfl
  | cons c cs ih =>
    simp only [List.map_cons, pumpGo, decode_encodeString, stringOfCodepoints_toNat,
      List.flatten_cons, ih]

/-! ### Handler lemmas -/

lemma filter_user_getLast (pre post : List ChatMessage) (m : ChatMessage)
    (hm : m.role = "user") (hpost : ∀ x ∈ post, x.role ≠ "user") :
    ((pre ++ m :: post).filter (fun x => x.role == "user")).getLast? = some m := by
  rw [List.filter_append, List.filter_cons]
  have hm2 : (m.role == "user") = true := by simp [hm]
  have hpost2 : post.filter (fun x => x.role == "user") = [] :=
    List.filter_eq_nil_iff.mpr (by intro a ha; simp [hpost a ha])
  simp only [hm2, if_pos, hpost2]
  exact List.getLast?_concat _

lemma handle_calls_eq (rag : AiSearchCall → RagBehavior)
    (ms : List ChatMessage) (m : ChatMessage)
    (h : (ms.filter (fun x => x.role == "user")).getLast? = some m) :
    (handleChatRequest rag (some (some ms))).2 = [mkAiSearchCall m.content] := by
  simp only [handleChatRequest, Option.getD_some, h]
  cases hr : rag (mkAiSearchCall m.content) with
  | throws => rfl
  | returns ob => cases ob <;> rfl

/-! ### Claim theorems -/

/-- C1 counterexample.  The claim says a retrieval failure is absorbed and
the request still proceeds to inference; in the code the AutoRAG `aiSearch`
call is the only upstream call, and when it throws the blanket catch
answers HTTP 500 `{"error":"Failed to process request"}` (and when it
resolves without a body, HTTP 500 `{"error":"No response received from
AutoRAG"}`): the retrieval failure fails the whole request. -/
theorem c1_counterexample :
    handleChatRequest (fun _ => RagBehavior.throws) (some (some [⟨"user", "hi"⟩])) =
      (ChatResponse.json 500 errFailedBody, [mkAiSearchCall "hi"]) ∧
    handleChatRequest (fun _ => RagBehavior.returns none) (some (some [⟨"user", "hi"⟩])) =
      (ChatResponse.json 500 errNoRagBody, [mkAiSearchCall "hi"]) := ⟨rfl, rfl⟩

/-- C1 amended: for every request with a last user-role message, if the
AutoRAG call throws the handler responds HTTP 500
`{"error":"Failed to process request"}`, and if it returns a response with
no body the handler responds HTTP 500
`{"error":"No response received from AutoRAG"}`; in both cases exactly one
upstream call was issued and the request does not proceed further. -/
theorem c1_amended_retrieval_failure_500 (ms : List ChatMessage) (m : ChatMessage)
    (h : (ms.filter (fun x => x.role == "user")).getLast? = some m) :
    handleChatRequest (fun _ => RagBehavior.throws) (some (some ms)) =
      (ChatResponse.json 500 errFailedBody, [mkAiSearchCall m.content]) ∧
    handleChatRequest (fun _ => RagBehavior.returns none) (some (some ms)) =
      (ChatResponse.json 500 errNoRagBody, [mkAiSearchCall m.content]) := by
  constructor <;> simp [handleChatRequest, h]

/-- C1 amended witness at a concrete request. -/
theorem c1_amended_witness :
    (([(⟨"user", "hi"⟩ : ChatMessage)].filter (fun x => x.role == "user")).getLast? =
        some (⟨"user", "hi"⟩ : ChatMessage)) ∧
    (handleChatRequest (fun _ => RagBehavior.throws) (some (some [⟨"user", "hi"⟩])) =
        (ChatResponse.json 500 errFailedBody, [mkAiSearchCall "hi"]) ∧
      handleChatRequest (fun _ => RagBehavior.returns none) (some (some [⟨"user", "hi"⟩])) =
        (ChatResponse.json 500 errNoRagBody, [mkAiSearchCall "hi"])) :=
  ⟨by decide, c1_amended_retrieval_failure_500 [⟨"user", "hi"⟩] ⟨"user", "hi"⟩ (by decide)⟩

/-- C2: for every conversation `pre ++ m :: post` whose message `m` has
role `user` and whose suffix `post` contains no user-role message — so `m`
is the chronologically last user message, whatever assistant or system
messages surround it — the handler's single upstream call uses exactly
`m.content` as the query. -/
theorem c2_last_user_message_query (rag : AiSearchCall → RagBehavior)
    (pre post : List ChatMessage) (m : ChatMessage)
    (hm : m.role = "user") (hpost : ∀ x ∈ post, x.role ≠ "user") :
    (handleChatRequest rag (some (some (pre ++ m :: post)))).2 =
      [mkAiSearchCall m.content] :=
  handle_calls_eq rag _ m (filter_user_getLast pre post m hm hpost)

/-- C2 witness: user and assistant messages interleaved; the query is the
content of the last user message, not the last message. -/
theorem c2_witness :
    (ChatMessage.mk "user" "q2").role = "user" ∧
    (∀ x ∈ [(⟨"assistant", "a2"⟩ : ChatMessage)], x.role ≠ "user") ∧
    (handleChatRequest (fun _ => RagBehavior.throws)
        (some (some ([⟨"user", "q1"⟩, ⟨"assistant", "a1"⟩] ++
          (⟨"user", "q2"⟩ : ChatMessage) :: [⟨"assistant", "a2"⟩])))).2 =
      [mkAiSearchCall "q2"] :=
  ⟨rfl, by decide,
    c2_last_user_message_query (fun _ => RagBehavior.throws)
      [⟨"user", "q1"⟩, ⟨"assistant", "a1"⟩] [⟨"assistant", "a2"⟩]
      ⟨"user", "q2"⟩ rfl (by decide)⟩

/-- C3: when the `messages` array contains no user-role message — including
the missing-field case, which defaults to the empty list — the handler
answers HTTP 400 `{"error":"No user message found"}` and the list of
upstream calls issued is empty. -/
theorem c3_no_user_message_400 (rag : AiSearchCall → RagBehavior)
    (mfield : Option (List ChatMessage))
    (h : ∀ x ∈ mfield.getD [], x.role ≠ "user") :
    handleChatRequest rag (some mfield) = (ChatResponse.json 400 errNoUserBody, []) := by
  have hf : (mfield.getD []).filter (fun m => m.role == "user") = [] :=
    List.filter_eq_nil_iff.mpr (by intro a ha; simp [h a ha])
  simp [handleChatRequest, hf]

/-- C3 witness: a missing `messages` field and an assistant-only
conversation both get the 400 with zero upstream calls. -/
theorem c3_witness :
    (∀ x ∈ (none : Option (List ChatMessage)).getD [], x.role ≠ "user") ∧
    handleChatRequest (fun _ => RagBehavior.throws) (some none) =
      (ChatResponse.json 400 errNoUserBody, []) ∧
    handleChatRequest (fun _ => RagBehavior.throws) (some (some [⟨"assistant", "yo"⟩])) =
      (ChatResponse.json 400 errNoUserBody, []) :=
  ⟨by decide, c3_no_user_message_400 _ none (by decide),
    c3_no_user_message_400 _ (some [⟨"assistant", "yo"⟩]) (by decide)⟩

/-- C4 counterexample.  The claim says the default instruction message is
prepended at index 0 before the inference call; in the code `SYSTEM_PROMPT`
is never used: the only upstream call for `[{role:"user",content:"hi"}]`
carries exactly the string "hi" as its query (the `AiSearchCall` record —
the complete payload of the only upstream call — has no message-list field
at all), and that query differs from `SYSTEM_PROMPT`, so no two-element
message list headed by the default instruction is ever sent. -/
theorem c4_counterexample :
    handleChatRequest (fun _ => RagBehavior.returns none) (some (some [⟨"user", "hi"⟩])) =
      (ChatResponse.json 500 errNoRagBody, [mkAiSearchCall "hi"]) ∧
    (mkAiSearchCall "hi").query = "hi" ∧ "hi" ≠ SYSTEM_PROMPT :=
  ⟨rfl, rfl, by decide⟩

/-- C4 amended: there is no prompt assembly.  For every request with a
last user-role message, the complete upstream traffic is the single
`aiSearch` call whose query is that message's content; no message list
(with or without a prepended `SYSTEM_PROMPT`) is transmitted, the constant
being dead code. -/
theorem c4_amended_no_prompt_assembly (rag : AiSearchCall → RagBehavior)
    (ms : List ChatMessage) (m : ChatMessage)
    (h : (ms.filter (fun x => x.role == "user")).getLast? = some m) :
    (handleChatRequest rag (some (some ms))).2 = [mkAiSearchCall m.content] :=
  handle_calls_eq rag ms m h

/-- C4 amended witness at a concrete single-user-message request. -/
theorem c4_amended_witness :
    (([(⟨"user", "hi"⟩ : ChatMessage)].filter (fun x => x.role == "user")).getLast? =
        some (⟨"user", "hi"⟩ : ChatMessage)) ∧
    (handleChatRequest (fun _ => RagBehavior.returns none)
        (some (some [⟨"user", "hi"⟩]))).2 = [mkAiSearchCall "hi"] :=
  ⟨by decide,
    c4_amended_no_prompt_assembly (fun _ => RagBehavior.returns none)
      [⟨"user", "hi"⟩] ⟨"user", "hi"⟩ (by decide)⟩

/-- C9: the router is a pure function of method and path with four
outcomes: root or non-`/api/` paths are forwarded unmodified to the
static-asset collaborator; POST on `/api/chat` goes to the chat handler;
any other method on `/api/chat` answers 405 "Method not allowed" without
touching the body; every other path answers 404 "Not found". -/
theorem c9_router_cases (req : HttpRequest) :
    (req.path = "/" ∨ jsStartsWith req.path "/api/" = false →
      routeRequest req = RouteOutcome.assets req) ∧
    (req.path = "/api/chat" → req.method = "POST" →
      routeRequest req = RouteOutcome.chatPost req) ∧
    (req.path = "/api/chat" → req.method ≠ "POST" →
      routeRequest req = RouteOutcome.response 405 "Method not allowed") ∧
    (req.path ≠ "/" → jsStartsWith req.path "/api/" = true → req.path ≠ "/api/chat" →
      routeRequest req = RouteOutcome.response 404 "Not found") := by
  obtain ⟨method, path⟩ := req
  refine ⟨fun h => ?_, fun hp hm => ?_, fun hp hm => ?_, fun h1 h2 h3 => ?_⟩
  · unfold routeRequest
    rw [if_pos h]
  · subst hp; subst hm
    decide
  · subst hp
    have hcond : ¬(("/api/chat" : String) = "/" ∨
        jsStartsWith "/api/chat" "/api/" = false) := by decide
    unfold routeRequest
    rw [if_neg hcond, if_pos rfl, if_neg hm]
  · have hcond : ¬(path = "/" ∨ jsStartsWith path "/api/" = false) := by
      rintro (hc | hc)
      · exact h1 hc
      · rw [h2] at hc; exact Bool.noConfusion hc
    unfold routeRequest
    rw [if_neg hcond, if_neg h3]

/-- C9 witness: one concrete request for each of the four outcomes. -/
theorem c9_router_witness :
    routeRequest ⟨"GET", "/index.html"⟩ = RouteOutcome.assets ⟨"GET", "/index.html"⟩ ∧
    routeRequest ⟨"POST", "/api/chat"⟩ = RouteOutcome.chatPost ⟨"POST", "/api/chat"⟩ ∧
    routeRequest ⟨"GET", "/api/chat"⟩ = RouteOutcome.response 405 "Method not allowed" ∧
    routeRequest ⟨"DELETE", "/api/other"⟩ = RouteOutcome.response 404 "Not found" :=
  ⟨(c9_router_cases ⟨"GET", "/index.html"⟩).1 (Or.inr (by decide)),
    (c9_router_cases ⟨"POST", "/api/chat"⟩).2.1 rfl rfl,
    (c9_router_cases ⟨"GET", "/api/chat"⟩).2.2.1 rfl (by decide),
    (c9_router_cases ⟨"DELETE", "/api/other"⟩).2.2.2 (by decide) (by decide) (by decide)⟩

/-- C10: two request bodies whose last user-role messages carry the same
content produce identical upstream calls — the single call's payload is
determined by, and consists of, that content plus fixed constants; no
other message of either conversation influences or is transmitted in it. -/
theorem c10_identical_upstream_call (rag1 rag2 : AiSearchCall → RagBehavior)
    (ms1 ms2 : List ChatMessage) (m1 m2 : ChatMessage)
    (h1 : (ms1.filter (fun x => x.role == "user")).getLast? = some m1)
    (h2 : (ms2.filter (fun x => x.role == "user")).getLast? = some m2)
    (hc : m1.content = m2.content) :
    (handleChatRequest rag1 (some (some ms1))).2 =
      (handleChatRequest rag2 (some (some ms2))).2 ∧
    (handleChatRequest rag1 (some (some ms1))).2 = [mkAiSearchCall m1.content] := by
  have e1 := handle_calls_eq rag1 ms1 m1 h1
  have e2 := handle_calls_eq rag2 ms2 m2 h2
  exact ⟨by rw [e1, e2, hc], e1⟩

/-- C10 witness: two different conversations with the same last user
content issue the same single call. -/
theorem c10_witness :
    (([(⟨"user", "hi"⟩ : ChatMessage)].filter (fun x => x.role == "user")).getLast? =
        some (⟨"user", "hi"⟩ : ChatMessage)) ∧
    (([⟨"system", "s"⟩, ⟨"user", "old"⟩, ⟨"assistant", "a"⟩,
        (⟨"user", "hi"⟩ : ChatMessage)].filter (fun x => x.role == "user")).getLast? =
        some (⟨"user", "hi"⟩ : ChatMessage)) ∧
    ((handleChatRequest (fun _ => RagBehavior.throws) (some (some [⟨"user", "hi"⟩]))).2 =
        (handleChatRequest (fun _ => RagBehavior.returns none)
          (some (some [⟨"system", "s"⟩, ⟨"user", "old"⟩, ⟨"assistant", "a"⟩, ⟨"user", "hi"⟩]))).2 ∧
      (handleChatRequest (fun _ => RagBehavior.throws) (some (some [⟨"user", "hi"⟩]))).2 =
        [mkAiSearchCall "hi"]) :=
  ⟨by decide, by decide,
    c10_identical_upstream_call (fun _ => RagBehavior.throws) (fun _ => RagBehavior.returns none)
      [⟨"user", "hi"⟩] [⟨"system", "s"⟩, ⟨"user", "old"⟩, ⟨"assistant", "a"⟩, ⟨"user", "hi"⟩]
      ⟨"user", "hi"⟩ ⟨"user", "hi"⟩ (by decide) (by decide) rfl⟩

lemma processLine_of_parse_fail (l : String)
    (h : jsonParse (jsTrim (stripDataMarker l)) = none) : processLine l = none := by
  simp [processLine, h]

set_option maxRecDepth 10000 in
/-- C5: feeding the translator the three frames `data: {"response":"a"}\n`,
`data: {"response":"b"}\n`, `data: [DONE]\n` produces exactly the two
output lines `{"response":"a"}` and `{"response":"b"}` in order, and the
stream then ends cleanly (the pump closes the controller on `done`, so the
output is exactly this list); the terminator sentinel contributes
nothing. -/
theorem c5_stream_roundtrip :
    pumpBytes [utf8EncodeString "data: \x7b\"response\":\"a\"\x7d\n",
               utf8EncodeString "data: \x7b\"response\":\"b\"\x7d\n",
               utf8EncodeString "data: [DONE]\n"] =
      ["\x7b\"response\":\"a\"\x7d\n", "\x7b\"response\":\"b\"\x7d\n"] := by decide

set_option maxRecDepth 10000 in
/-- C6: an upstream chunk all of whose lines fail JSON parsing after the
`data:` marker is stripped — in particular a malformed frame such as
`data: {not json}\n` — is silently discarded between two valid frames: the
translator still emits the outputs of both surrounding frames and the
stream is not aborted. -/
theorem c6_malformed_line_dropped (mid : String)
    (h : ∀ l ∈ jsSplitNl mid, (jsonParse (jsTrim (stripDataMarker l))).isNone = true) :
    pumpBytes [utf8EncodeString "data: \x7b\"response\":\"a\"\x7d\n",
               utf8EncodeString mid,
               utf8EncodeString "data: \x7b\"response\":\"b\"\x7d\n"] =
      ["\x7b\"response\":\"a\"\x7d\n", "\x7b\"response\":\"b\"\x7d\n"] := by
  have hmid : processChunk mid = [] := by
    unfold processChunk processLines
    rw [List.filterMap_eq_nil_iff]
    intro l hl
    exact processLine_of_parse_fail l (Option.isNone_iff_eq_none.mp (h l hl))
  have hpump := pumpGo_encode ["data: \x7b\"response\":\"a\"\x7d\n", mid,
    "data: \x7b\"response\":\"b\"\x7d\n"]
  simp only [List.map_cons, List.map_nil, List.flatten_cons, List.flatten_nil] at hpump
  unfold pumpBytes
  rw [hpump, hmid]
  decide

set_option maxRecDepth 10000 in
/-- C6 witness: the malformed middle frame `data: {not json}\n`. -/
theorem c6_witness :
    (∀ l ∈ jsSplitNl "data: \x7bnot json\x7d\n",
        (jsonParse (jsTrim (stripDataMarker l))).isNone = true) ∧
    pumpBytes [utf8EncodeString "data: \x7b\"response\":\"a\"\x7d\n",
               utf8EncodeString "data: \x7bnot json\x7d\n",
               utf8EncodeString "data: \x7b\"response\":\"b\"\x7d\n"] =
      ["\x7b\"response\":\"a\"\x7d\n", "\x7b\"response\":\"b\"\x7d\n"] :=
  ⟨by decide, c6_malformed_line_dropped "data: \x7bnot json\x7d\n" (by decide)⟩

set_option maxRecDepth 10000 in
/-- C7 counterexample.  The claim says a frame split across two chunks is
reconstructed: `data: {"respo` then `nse":"a"}\n` should still yield
`{"response":"a"}`.  In the code each chunk is split into lines on its
own, so both fragments fail JSON parsing and the frame is dropped: the
two-chunk stream produces no output at all, while the same bytes in a
single chunk do produce the line. -/
theorem c7_counterexample :
    pumpBytes [utf8EncodeString "data: \x7b\"respo",
               utf8EncodeString "nse\":\"a\"\x7d\n"] = [] ∧
    pumpBytes [utf8EncodeString "data: \x7b\"respo" ++ utf8EncodeString "nse\":\"a\"\x7d\n"] =
      ["\x7b\"response\":\"a\"\x7d\n"] :=
  ⟨by decide, by decide⟩

/-- C7 amended: lines are not reconstructed across chunks.  For every
sequence of string chunks, the translator's output is exactly the
concatenation of each chunk's independent line processing — a line
terminator in a later chunk never completes a line begun in an earlier
one; only partial UTF-8 byte sequences are carried across boundaries. -/
theorem c7_amended_lines_split_per_chunk (chunks : List String) :
    pumpBytes (chunks.map utf8EncodeString) = (chunks.map processChunk).flatten :=
  pumpGo_encode chunks

set_option maxRecDepth 10000 in
/-- C8 counterexample.  The claim says a multi-byte character split at a
chunk boundary reaches the final output correctly decoded.  The decoder
does carry the split bytes, but the line containing the character then
necessarily spans both chunks, and per-chunk line splitting (C7) makes
both fragments fail JSON parsing: for the frame
`data: {"response":"é"}\n` with the two bytes of `é` split across chunks,
the final output is empty — the character (with its whole frame) never
appears in the final output, although the same bytes as one chunk produce
the frame. -/
theorem c8_counterexample :
    pumpBytes [utf8EncodeString "data: \x7b\"response\":\"" ++ [0xC3],
               0xA9 :: utf8EncodeString "\"\x7d\n"] = [] ∧
    pumpBytes [utf8EncodeString "data: \x7b\"response\":\"é\"\x7d\n"] =
      ["\x7b\"response\":\"é\"\x7d\n"] :=
  ⟨by decide, by decide⟩

/-- C8 amended: the incremental decoder is correct across any chunk
boundary — for every code-point sequence, splitting its UTF-8 encoding at
any byte position and feeding the two chunks through the decoder with
carried state reproduces exactly the original code points: the partial
byte sequence is carried over, never dropped and never turned into a
replacement character.  (The character can still fail to reach the final
output, but only because its whole line is dropped per C7, not by
mis-decoding.) -/
theorem c8_amended_decoder_carries_split_char (cps : List Nat)
    (h : ∀ c ∈ cps, c < 0x110000) (i : Nat) :
    (decodeBytes DecState.init ((utf8Encode cps).take i)).2 ++
      (decodeBytes (decodeBytes DecState.init ((utf8Encode cps).take i)).1
        ((utf8Encode cps).drop i)).2 = cps := by
  have happ := decodeBytes_append ((utf8Encode cps).take i)
    ((utf8Encode cps).drop i) DecState.init
  rw [List.take_append_drop, decode_encode cps h] at happ
  exact (congrArg Prod.snd happ).symm

/-- C8 amended witness: `é` (U+00E9, two bytes) split at byte position 1. -/
theorem c8_amended_witness :
    (∀ c ∈ [233], c < 0x110000) ∧
    (decodeBytes DecState.init ((utf8Encode [233]).take 1)).2 ++
      (decodeBytes (decodeBytes DecState.init ((utf8Encode [233]).take 1)).1
        ((utf8Encode [233]).drop 1)).2 = [233] :=
  ⟨by decide, c8_amended_decoder_carries_split_char [233] (by decide) 1⟩
